import Mathlib

/-!
Verification of the liao-tools spreadsheet merge-cell redistribution engine.

The TypeScript frontend (process types, configuration panel) is embedded from
the repository sources (`src/lib/api/excel.ts`, `ProcessConfigPanel.tsx`).
The Rust backend (`src-tauri/src/commands/excel/`: reader, merge parser,
processor, writer, config) is not part of the source tree we were given, so
its behaviour is modelled from the specification (spec.md §4, §6, §7).
-/

/-- Embedded from `src/lib/api/excel.ts` (`ProcessType`): the union type of the
three process-type identifiers. -/
inductive ProcessType where
  | seaRailWithImage
  | seaRailNoImage
  | airFreight
deriving DecidableEq, Repr

/-- Embedded from `src/lib/api/excel.ts`: the string literal each `ProcessType`
union member stands for. -/
def ProcessType.id : ProcessType → String
  | .seaRailWithImage => "sea-rail-with-image"
  | .seaRailNoImage => "sea-rail-no-image"
  | .airFreight => "air-freight"

/-- Embedded from `ProcessConfigPanel.tsx` (`loadAllConfigs`): the literal list
of process types the panel iterates over when loading configurations. -/
def loadAllConfigsTypes : List String :=
  ["sea-rail-with-image", "sea-rail-no-image", "air-freight"]

/-- Embedded from `src/lib/api/excel.ts` (`ProcessConfig`): column indices and
the image-copy flag, keyed by process type. Column indices are 1-indexed
spreadsheet columns, modelled as naturals. -/
structure ProcessConfig where
  process_type : ProcessType
  weight_column : Nat
  box_column : Nat
  copy_images : Bool
deriving DecidableEq, Repr

/-- Embedded from `src/lib/api/excel.ts` (`ProcessResponse`): the result shape
returned by one processing invocation. -/
structure ProcessResult where
  success : Bool
  output_path : String
  message : String
  logs : List String
deriving DecidableEq, Repr

/-- Modelled from the spec (§4.1, Workbook Reader, missing Rust `reader.rs`):
a cell value is numeric, text, or empty; non-numeric cells are treated as zero
for arithmetic. Numerics are modelled as rationals. -/
inductive CellValue where
  | num (q : ℚ)
  | text (s : String)
  | empty
deriving DecidableEq

/-- Modelled from the spec (§3, Sheet, missing Rust `reader.rs`): the logical
cell grid, as a function from 1-indexed (row, column) coordinates to values. -/
def Grid : Type := Nat → Nat → CellValue

/-- Modelled from the spec (§4.1, missing Rust `reader.rs`): the numeric value
of a cell; text and empty cells count as zero for arithmetic purposes. -/
def numValue : CellValue → ℚ
  | .num q => q
  | .text _ => 0
  | .empty => 0

/-- Modelled from the spec (§7, `NonNumericCell`, missing Rust `processor.rs`):
whether a cell expected to be numeric is text or empty. -/
def nonNumeric : CellValue → Bool
  | .num _ => false
  | .text _ => true
  | .empty => true

/-- Modelled from the spec (§3 / §4.2, missing Rust `merge_parser.rs`): a raw
rectangular merged region as recovered from the file's internal markup. A
supported `MergedRange` is the single-column case `start_col = end_col`. -/
structure Region where
  start_row : Nat
  end_row : Nat
  start_col : Nat
  end_col : Nat
deriving DecidableEq, Repr

/-- Modelled from the spec (§7, missing Rust `processor.rs`): the log events
the engine can emit while processing. -/
inductive LogEvent where
  | divisionByZero (rg : Region)
  | unsupportedMergeShape (rg : Region)
  | nonNumericCell (row col : Nat)
deriving DecidableEq, Repr

/-- Modelled from the spec (§7, missing Rust `processor.rs`): rendering of a
log event into the human-readable log line collected in `ProcessResult.logs`. -/
def renderLog : LogEvent → String
  | .divisionByZero rg =>
      "DivisionByZero: 行 " ++ toString rg.start_row ++ "-" ++ toString rg.end_row ++ " 总数量为 0"
  | .unsupportedMergeShape rg =>
      "UnsupportedMergeShape: 列 " ++ toString rg.start_col ++ "-" ++ toString rg.end_col ++ " 跨多列合并"
  | .nonNumericCell r c =>
      "NonNumericCell: 单元格 (" ++ toString r ++ ", " ++ toString c ++ ") 非数字，按 0 处理"

/-- Modelled from the spec (§4.3 step 5, missing Rust `processor.rs`): rounding
to 2 decimal places with round-half-up semantics (`round x = ⌊x + 1/2⌋`). -/
def round2 (x : ℚ) : ℚ := ((round (100 * x) : ℤ) : ℚ) / 100

/-- Modelled from the spec (§4.3, missing Rust `processor.rs`): the physical
rows `[start_row, end_row]` a region spans. -/
def rangeRows (rg : Region) : List Nat :=
  List.range' rg.start_row (rg.end_row + 1 - rg.start_row)

/-- Modelled from the spec (§4.3 steps 2-3, missing Rust `processor.rs`): the
sum of the quantity column (column `weight_column - 1`) over a range's rows. -/
def totalQuantity (g : Grid) (wcol : Nat) (rg : Region) : ℚ :=
  ((rangeRows rg).map (fun r => numValue (g r (wcol - 1)))).sum

/-- Modelled from the spec (§4.3, missing Rust `processor.rs`): assign a value
to every row in `[a, b]` of column `c`, leaving all other cells untouched. -/
def setRangeRows (g : Grid) (c a b : Nat) (f : Nat → CellValue) : Grid :=
  fun r c' => if c' = c ∧ a ≤ r ∧ r ≤ b then f r else g r c'

/-- Modelled from the spec (§7, `NonNumericCell`, missing Rust `processor.rs`):
log events for the non-numeric quantity cells of a weight range. -/
def nonNumericLogs (g : Grid) (wcol : Nat) (rg : Region) : List LogEvent :=
  ((rangeRows rg).filter (fun r => nonNumeric (g r (wcol - 1)))).map
    (fun r => LogEvent.nonNumericCell r (wcol - 1))

/-- Modelled from the spec (§4.3 steps 1-5, missing Rust `processor.rs`):
redistribution of one merged weight range. The total weight sits at the
range's top row in the weight column; quantities come from the column to the
left; a zero quantity sum is logged and yields all-zero weights. -/
def processWeightRange (wcol : Nat) (g : Grid) (rg : Region) : Grid × List LogEvent :=
  let tw := numValue (g rg.start_row wcol)
  let tq := totalQuantity g wcol rg
  if tq = 0 then
    (setRangeRows g wcol rg.start_row rg.end_row (fun _ => .num 0),
     nonNumericLogs g wcol rg ++ [.divisionByZero rg])
  else
    (setRangeRows g wcol rg.start_row rg.end_row
       (fun r => .num (round2 (tw / tq * numValue (g r (wcol - 1))))),
     nonNumericLogs g wcol rg)

/-- Modelled from the spec (§4.3, box policy, missing Rust `processor.rs`):
the first row of a box range keeps the merged value already resolved there by
the reader; every other row of the range is set to 0. -/
def processBoxRange (bcol : Nat) (g : Grid) (rg : Region) : Grid × List LogEvent :=
  (setRangeRows g bcol (rg.start_row + 1) rg.end_row (fun _ => .num 0), [])

/-- Modelled from the spec (§4.2 / §4.3, missing Rust `processor.rs`): process
one merged region: multi-column shapes are logged as unsupported and passed
through; single-column ranges on the weight column are redistributed; ranges
on the box column follow the box policy; anything else passes through. -/
def processRegion (wcol bcol : Nat) (st : Grid × List LogEvent) (rg : Region) :
    Grid × List LogEvent :=
  if rg.start_col ≠ rg.end_col then
    (st.1, st.2 ++ [.unsupportedMergeShape rg])
  else if rg.start_col = wcol then
    let p := processWeightRange wcol st.1 rg
    (p.1, st.2 ++ p.2)
  else if rg.start_col = bcol then
    let p := processBoxRange bcol st.1 rg
    (p.1, st.2 ++ p.2)
  else
    (st.1, st.2)

/-- Modelled from the spec (§4.3, missing Rust `processor.rs`): the core
redistribution pass: fold over all recovered regions, threading the grid and
the accumulated log. -/
def runEngine (wcol bcol : Nat) (g : Grid) (rgs : List Region) : Grid × List LogEvent :=
  rgs.foldl (processRegion wcol bcol) (g, [])

/-- Modelled from the spec (§6, output file naming, missing Rust `writer.rs`):
the fixed marker inserted before the input file's extension. -/
def splitMarker : String := "_拆分表"

/-- Modelled from the spec (§6, missing Rust `writer.rs`): insert a marker
before the last-dot extension of a path; a path with no extension gets the
marker appended. -/
def insertBeforeExt (m p : String) : String :=
  let rev := p.data.reverse
  if rev.contains '.' then
    String.mk ((rev.dropWhile (fun ch => ch ≠ '.')).drop 1).reverse ++ m ++ "." ++
      String.mk (rev.takeWhile (fun ch => ch ≠ '.')).reverse
  else p ++ m

/-- Modelled from the spec (§6, missing Rust `writer.rs`): the output path
derived deterministically from the input path. -/
def derive_output_path (p : String) : String := insertBeforeExt splitMarker p

/-- Modelled from the spec (§4.4, missing Rust `writer.rs`): the filesystem as
a partial map from paths to workbook contents (here: the cell grid). -/
def FS : Type := String → Option Grid

/-- Modelled from the spec (§4.1 / §4.2 / §4.4, missing Rust backend): one
input file as the engine observes it: the reader's result, the merge
extractor's result, and whether the output location is writable. -/
structure InputFile where
  readResult : Except String Grid
  mergeResult : Except String (List Region)
  writable : Bool

/-- Whether an `Except` is a success. -/
def exOk {α : Type} : Except String α → Bool
  | .ok _ => true
  | .error _ => false

/-- Modelled from the spec (§6 / §7, missing Rust `commands.rs` +
`processor.rs`): the whole pipeline for one invocation. Fatal errors
(`ReadError`, `MergeParseError`, `WriteError`) stop immediately and return a
failed result with empty output path and the logs accumulated so far;
otherwise the engine runs, the output file is created at the derived path, and
a successful result is returned. Only `weight_column` and `box_column` of the
configuration are consulted; `copy_images` is never acted upon. -/
def processExcelFile (cfg : ProcessConfig) (f : InputFile) (path : String) (fs : FS) :
    ProcessResult × FS :=
  match f.readResult with
  | .error e =>
      ({ success := false, output_path := "", message := "ReadError: " ++ e, logs := [] }, fs)
  | .ok grid =>
    match f.mergeResult with
    | .error e =>
        ({ success := false, output_path := "", message := "MergeParseError: " ++ e, logs := [] },
         fs)
    | .ok regions =>
        let res := runEngine cfg.weight_column cfg.box_column grid regions
        let logs := res.2.map renderLog
        if f.writable then
          ({ success := true, output_path := derive_output_path path,
             message := "处理完成", logs := logs },
           fun p => if p = derive_output_path path then some res.1 else fs p)
        else
          ({ success := false, output_path := "", message := "WriteError: 无法创建输出文件",
             logs := logs }, fs)

/-- Modelled from the spec (§4.5, missing Rust `config.rs`): upper bound of a
sane spreadsheet column index; `ProcessConfigPanel.tsx` constrains both column
inputs to the range 1..100. -/
def maxColumnIndex : Nat := 100

/-- Modelled from the spec (§4.5, missing Rust `config.rs`): a column index is
valid when it is a positive integer within the sane spreadsheet range. -/
def validColumn (c : Nat) : Bool := decide (1 ≤ c) && decide (c ≤ maxColumnIndex)

/-- Modelled from the spec (§4.5, missing Rust `config.rs`): a config is valid
when both its weight column and its box column are valid. -/
def validateConfig (c : ProcessConfig) : Bool :=
  validColumn c.weight_column && validColumn c.box_column

/-- Modelled from the spec (§6, missing Rust `config.rs`): the persisted keyed
mapping from process type to its `ProcessConfig`. -/
def ConfigStore : Type := ProcessType → ProcessConfig

/-- Modelled from the spec (§4.5, missing Rust `config.rs`): the write
operation of the Configuration Resolver: a validated write updates the entry
for the config's process type; an invalid config is rejected. -/
def save_excel_config (store : ConfigStore) (c : ProcessConfig) : Except String ConfigStore :=
  if validateConfig c then
    .ok (fun t => if t = c.process_type then c else store t)
  else
    .error "配置无效：列索引必须是 1 到 100 之间的正整数"

/-- Modelled from the spec (§4.5, missing Rust `config.rs`): the read
operation of the Configuration Resolver. -/
def get_excel_config (store : ConfigStore) (t : ProcessType) : ProcessConfig := store t

/-- Embedded from `EXCEL_TOOL_README.md` (built-in defaults): sea-rail types
use weight column 13 and box column 11; air freight uses 15 and 13. -/
def defaultConfig : ProcessType → ProcessConfig
  | .seaRailWithImage => ⟨.seaRailWithImage, 13, 11, true⟩
  | .seaRailNoImage => ⟨.seaRailNoImage, 13, 11, false⟩
  | .airFreight => ⟨.airFreight, 15, 13, true⟩

lemma setRangeRows_in (g : Grid) (c a b : Nat) (f : Nat → CellValue) (r : Nat)
    (h1 : a ≤ r) (h2 : r ≤ b) : setRangeRows g c a b f r c = f r := by
  unfold setRangeRows
  rw [if_pos ⟨rfl, h1, h2⟩]

lemma setRangeRows_outside (g : Grid) (c a b : Nat) (f : Nat → CellValue) (r c' : Nat)
    (h : ¬(a ≤ r ∧ r ≤ b)) : setRangeRows g c a b f r c' = g r c' := by
  unfold setRangeRows
  rw [if_neg]
  rintro ⟨-, h1, h2⟩
  exact h ⟨h1, h2⟩

lemma processRegion_weight (wcol bcol : Nat) (g : Grid) (logs : List LogEvent)
    (rg : Region) (h1 : rg.start_col = wcol) (h2 : rg.end_col = wcol) :
    processRegion wcol bcol (g, logs) rg =
      ((processWeightRange wcol g rg).1, logs ++ (processWeightRange wcol g rg).2) := by
  subst h1
  simp [processRegion, h2]

/-- C1: for a merged range on the weight column with nonzero quantity sum, every
row `r` of the range gets `round2` of `unit_weight × quantity[r]`, where the
total weight is read at the range's top row in the weight column and the
quantities come from column `weight_column - 1`. -/
theorem weight_split_formula (wcol bcol : Nat) (g : Grid) (logs : List LogEvent)
    (rg : Region) (r : Nat)
    (h1 : rg.start_col = wcol) (h2 : rg.end_col = wcol)
    (hq : totalQuantity g wcol rg ≠ 0)
    (hr1 : rg.start_row ≤ r) (hr2 : r ≤ rg.end_row) :
    (processRegion wcol bcol (g, logs) rg).1 r wcol =
      .num (round2 (numValue (g rg.start_row wcol) / totalQuantity g wcol rg *
        numValue (g r (wcol - 1)))) := by
  rw [processRegion_weight wcol bcol g logs rg h1 h2]
  show (processWeightRange wcol g rg).1 r wcol = _
  unfold processWeightRange
  rw [if_neg hq]
  exact setRangeRows_in g wcol rg.start_row rg.end_row
    (fun r => .num (round2 (numValue (g rg.start_row wcol) / totalQuantity g wcol rg *
      numValue (g r (wcol - 1))))) r hr1 hr2

/-- Example sheet for C1: weight column 13 holds 90 at row 5 (top of a merge
over rows 5-7); quantity column 12 holds 1, 2, 3 on those rows. -/
def gridC1 : Grid := fun r c =>
  if c = 13 ∧ r = 5 then .num 90
  else if c = 12 ∧ r = 5 then .num 1
  else if c = 12 ∧ r = 6 then .num 2
  else if c = 12 ∧ r = 7 then .num 3
  else .empty

theorem weight_split_formula_witness :
    (processRegion 13 11 (gridC1, []) ⟨5, 7, 13, 13⟩).1 5 13 = .num 15 ∧
    (processRegion 13 11 (gridC1, []) ⟨5, 7, 13, 13⟩).1 6 13 = .num 30 ∧
    (processRegion 13 11 (gridC1, []) ⟨5, 7, 13, 13⟩).1 7 13 = .num 45 := by
  have hrows : rangeRows ⟨5, 7, 13, 13⟩ = [5, 6, 7] := by decide
  have hq : totalQuantity gridC1 13 ⟨5, 7, 13, 13⟩ = 6 := by
    norm_num [totalQuantity, hrows, gridC1, numValue]
  have hq0 : totalQuantity gridC1 13 ⟨5, 7, 13, 13⟩ ≠ 0 := by
    rw [hq]; norm_num
  refine ⟨?_, ?_, ?_⟩
  · rw [weight_split_formula 13 11 gridC1 [] ⟨5, 7, 13, 13⟩ 5 rfl rfl hq0
      (by norm_num) (by norm_num), hq]
    norm_num [gridC1, numValue, round2, round_eq]
  · rw [weight_split_formula 13 11 gridC1 [] ⟨5, 7, 13, 13⟩ 6 rfl rfl hq0
      (by norm_num) (by norm_num), hq]
    norm_num [gridC1, numValue, round2, round_eq]
  · rw [weight_split_formula 13 11 gridC1 [] ⟨5, 7, 13, 13⟩ 7 rfl rfl hq0
      (by norm_num) (by norm_num), hq]
    norm_num [gridC1, numValue, round2, round_eq]

/-- C2: for a merged range on the box column, the first row keeps the original
merged value (the value the reader resolved at the range's top row) and every
later row of the range is set to exactly 0. -/
theorem box_first_row_policy (wcol bcol : Nat) (g : Grid) (logs : List LogEvent)
    (rg : Region) (r : Nat)
    (h1 : rg.start_col = bcol) (h2 : rg.end_col = bcol) (hwb : bcol ≠ wcol)
    (hr1 : rg.start_row < r) (hr2 : r ≤ rg.end_row) :
    (processRegion wcol bcol (g, logs) rg).1 rg.start_row bcol = g rg.start_row bcol ∧
    (processRegion wcol bcol (g, logs) rg).1 r bcol = .num 0 := by
  subst h1
  have hmain : processRegion wcol rg.start_col (g, logs) rg =
      (setRangeRows g rg.start_col (rg.start_row + 1) rg.end_row (fun _ => .num 0), logs) := by
    simp [processRegion, h2, hwb, processBoxRange]
  constructor
  · rw [hmain]
    exact setRangeRows_outside g rg.start_col (rg.start_row + 1) rg.end_row
      (fun _ => .num 0) rg.start_row rg.start_col (by omega)
  · rw [hmain]
    exact setRangeRows_in g rg.start_col (rg.start_row + 1) rg.end_row
      (fun _ => .num 0) r (by omega) hr2

/-- Example sheet for C2: box column 11 holds the merged value 6 at row 10 (top
of a merge over rows 10-12). -/
def gridC2 : Grid := fun r c =>
  if c = 11 ∧ r = 10 then .num 6 else .empty

theorem box_first_row_policy_witness :
    (processRegion 13 11 (gridC2, []) ⟨10, 12, 11, 11⟩).1 10 11 = .num 6 ∧
    (processRegion 13 11 (gridC2, []) ⟨10, 12, 11, 11⟩).1 11 11 = .num 0 ∧
    (processRegion 13 11 (gridC2, []) ⟨10, 12, 11, 11⟩).1 12 11 = .num 0 := by
  have hA := box_first_row_policy 13 11 gridC2 [] ⟨10, 12, 11, 11⟩ 11 rfl rfl
    (by norm_num) (by norm_num) (by norm_num)
  have hB := box_first_row_policy 13 11 gridC2 [] ⟨10, 12, 11, 11⟩ 12 rfl rfl
    (by norm_num) (by norm_num) (by norm_num)
  refine ⟨?_, hA.2, hB.2⟩
  rw [hA.1]
  simp [gridC2]

/-- C3: a merged weight range whose quantity column sums to zero is logged as a
`DivisionByZero`, every row of the range is set to weight 0, and the fold over
the remaining ranges continues from there (the run is not aborted). -/
theorem zero_quantity_safety (wcol bcol : Nat) (g : Grid) (logs : List LogEvent)
    (rg : Region) (r : Nat)
    (h1 : rg.start_col = wcol) (h2 : rg.end_col = wcol)
    (hq : totalQuantity g wcol rg = 0)
    (hr1 : rg.start_row ≤ r) (hr2 : r ≤ rg.end_row) :
    (processRegion wcol bcol (g, logs) rg).1 r wcol = .num 0 ∧
    LogEvent.divisionByZero rg ∈ (processRegion wcol bcol (g, logs) rg).2 ∧
    ∀ rest : List Region,
      runEngine wcol bcol g (rg :: rest) =
        rest.foldl (processRegion wcol bcol) (processRegion wcol bcol (g, []) rg) := by
  have hz : ∀ l : List LogEvent, processRegion wcol bcol (g, l) rg =
      (setRangeRows g wcol rg.start_row rg.end_row (fun _ => .num 0),
        l ++ (nonNumericLogs g wcol rg ++ [.divisionByZero rg])) := by
    intro l
    rw [processRegion_weight wcol bcol g l rg h1 h2]
    unfold processWeightRange
    rw [if_pos hq]
  refine ⟨?_, ?_, ?_⟩
  · rw [hz logs]
    exact setRangeRows_in g wcol rg.start_row rg.end_row (fun _ => .num 0) r hr1 hr2
  · rw [hz logs]
    simp
  · intro rest
    rfl

/-- Example sheet for C3: weight column 13 holds 90 at row 5, but the quantity
column 12 is empty over rows 5-7, so the quantity sum is zero. -/
def gridC3 : Grid := fun r c =>
  if c = 13 ∧ r = 5 then .num 90 else .empty

theorem zero_quantity_safety_witness :
    (processRegion 13 11 (gridC3, []) ⟨5, 7, 13, 13⟩).1 6 13 = .num 0 ∧
    LogEvent.divisionByZero ⟨5, 7, 13, 13⟩ ∈ (processRegion 13 11 (gridC3, []) ⟨5, 7, 13, 13⟩).2 := by
  have hrows : rangeRows ⟨5, 7, 13, 13⟩ = [5, 6, 7] := by decide
  have hq : totalQuantity gridC3 13 ⟨5, 7, 13, 13⟩ = 0 := by
    norm_num [totalQuantity, hrows, gridC3, numValue]
  have h := zero_quantity_safety 13 11 gridC3 [] ⟨5, 7, 13, 13⟩ 6 rfl rfl hq
    (by norm_num) (by norm_num)
  exact ⟨h.1, h.2.1⟩

/-- C4: a merged region spanning more than one column is treated as non-fatal:
it is logged as `UnsupportedMergeShape`, the grid is passed through unmodified,
and the fold continues over the remaining regions. -/
theorem unsupported_shape_passthrough (wcol bcol : Nat) (g : Grid) (logs : List LogEvent)
    (rg : Region) (h : rg.start_col ≠ rg.end_col) :
    processRegion wcol bcol (g, logs) rg = (g, logs ++ [.unsupportedMergeShape rg]) ∧
    ∀ rest : List Region,
      runEngine wcol bcol g (rg :: rest) =
        rest.foldl (processRegion wcol bcol) (g, [.unsupportedMergeShape rg]) := by
  constructor
  · simp [processRegion, h]
  · intro rest
    show (rg :: rest).foldl (processRegion wcol bcol) (g, []) = _
    rw [List.foldl_cons]
    congr 1
    simp [processRegion, h]

/-- Example sheet for C4: weight column 13 holds 80 at row 3, and the merge at
rows 3-4 spans columns 13-14 (a two-column merge). -/
def gridC4 : Grid := fun r c =>
  if c = 13 ∧ r = 3 then .num 80 else .empty

theorem unsupported_shape_passthrough_witness :
    processRegion 13 11 (gridC4, []) ⟨3, 4, 13, 14⟩ =
      (gridC4, [.unsupportedMergeShape ⟨3, 4, 13, 14⟩]) ∧
    runEngine 13 11 gridC4 [⟨3, 4, 13, 14⟩] =
      (gridC4, [.unsupportedMergeShape ⟨3, 4, 13, 14⟩]) := by
  have h := unsupported_shape_passthrough 13 11 gridC4 [] ⟨3, 4, 13, 14⟩ (by norm_num)
  refine ⟨by simpa using h.1, ?_⟩
  rw [h.2 []]
  rfl

lemma processRegion_outside_rows (wcol bcol : Nat) (st : Grid × List LogEvent)
    (rg : Region) (r c : Nat) (h : ¬(rg.start_row ≤ r ∧ r ≤ rg.end_row)) :
    (processRegion wcol bcol st rg).1 r c = st.1 r c := by
  unfold processRegion
  split
  · rfl
  · split
    · show (processWeightRange wcol st.1 rg).1 r c = st.1 r c
      unfold processWeightRange
      dsimp only
      split
      · exact setRangeRows_outside st.1 wcol rg.start_row rg.end_row (fun _ => .num 0) r c h
      · exact setRangeRows_outside st.1 wcol rg.start_row rg.end_row
          (fun r => .num (round2 (numValue (st.1 rg.start_row wcol) / totalQuantity st.1 wcol rg *
            numValue (st.1 r (wcol - 1))))) r c h
    · split
      · show (processBoxRange bcol st.1 rg).1 r c = st.1 r c
        unfold processBoxRange
        exact setRangeRows_outside st.1 bcol (rg.start_row + 1) rg.end_row (fun _ => .num 0)
          r c (by rintro ⟨h1, h2⟩; exact h ⟨by omega, h2⟩)
      · rfl

lemma runEngine_outside_rows (wcol bcol : Nat) (rgs : List Region) :
    ∀ (st : Grid × List LogEvent) (r c : Nat),
      (∀ rg ∈ rgs, ¬(rg.start_row ≤ r ∧ r ≤ rg.end_row)) →
      (rgs.foldl (processRegion wcol bcol) st).1 r c = st.1 r c := by
  induction rgs with
  | nil => intro st r c _; rfl
  | cons hd tl ih =>
      intro st r c h
      rw [List.foldl_cons,
        ih (processRegion wcol bcol st hd) r c (fun rg hm => h rg (List.mem_cons_of_mem _ hm))]
      exact processRegion_outside_rows wcol bcol st hd r c (h hd (List.mem_cons_self _ _))

/-- C5: every cell of a row lying outside all merged ranges is passed through
unchanged by the engine, and on an input with no merged regions at all the
engine returns the grid unchanged (with an empty log). -/
theorem outside_rows_unchanged (wcol bcol : Nat) (g : Grid) (rgs : List Region) (r c : Nat)
    (h : ∀ rg ∈ rgs, ¬(rg.start_row ≤ r ∧ r ≤ rg.end_row)) :
    (runEngine wcol bcol g rgs).1 r c = g r c ∧ runEngine wcol bcol g [] = (g, []) :=
  ⟨runEngine_outside_rows wcol bcol rgs (g, []) r c h, rfl⟩

/-- Example sheet for C5: weight column 13 holds 50 at row 1, the only merged
range spans rows 1-3; row 9 lies outside it. -/
def gridC5 : Grid := fun r c =>
  if c = 13 ∧ r = 1 then .num 50 else .empty

theorem outside_rows_unchanged_witness :
    (runEngine 13 11 gridC5 [⟨1, 3, 13, 13⟩]).1 9 13 = gridC5 9 13 ∧
    runEngine 13 11 gridC5 [] = (gridC5, []) :=
  outside_rows_unchanged 13 11 gridC5 [⟨1, 3, 13, 13⟩] 9 13 (by decide)

lemma length_insertBeforeExt (m p : String) :
    (insertBeforeExt m p).length = p.length + m.length := by
  unfold insertBeforeExt
  by_cases h : p.data.reverse.contains '.'
  · have hmem : ('.' : Char) ∈ p.data.reverse := by simpa using h
    have hdw : p.data.reverse.dropWhile (fun ch => ch ≠ '.') ≠ [] := by
      intro hnil
      rw [List.dropWhile_eq_nil_iff] at hnil
      have := hnil '.' hmem
      simp at this
    have hsplit : (p.data.reverse.takeWhile (fun ch => ch ≠ '.')).length +
        (p.data.reverse.dropWhile (fun ch => ch ≠ '.')).length = p.length := by
      have h2 := congrArg List.length
        (List.takeWhile_append_dropWhile (fun ch => ch ≠ '.') p.data.reverse)
      rw [List.length_append, List.length_reverse] at h2
      exact h2
    have hdw1 : 1 ≤ (p.data.reverse.dropWhile (fun ch => ch ≠ '.')).length := by
      cases hcase : p.data.reverse.dropWhile (fun ch => ch ≠ '.') with
      | nil => exact absurd hcase hdw
      | cons a l => simp
    rw [if_pos h]
    rw [String.length_append, String.length_append, String.length_append]
    show ((p.data.reverse.dropWhile (fun ch => ch ≠ '.')).drop 1).reverse.length +
        m.length + ("." : String).length +
        (p.data.reverse.takeWhile (fun ch => ch ≠ '.')).reverse.length = p.length + m.length
    rw [List.length_reverse, List.length_reverse, List.length_drop]
    have hdot : ("." : String).length = 1 := rfl
    rw [hdot]
    omega
  · rw [if_neg h, String.length_append]

lemma derive_output_path_ne (p : String) : derive_output_path p ≠ p := by
  intro hcontra
  have hlen := congrArg String.length hcontra
  rw [derive_output_path, length_insertBeforeExt] at hlen
  have hm : splitMarker.length = 4 := by decide
  omega

/-- C6: the pipeline's only filesystem effect is creating the output file at
the path derived by inserting the fixed marker before the input's extension:
every other path, including the input path itself, is left untouched on
success and on every error path; on success the result's `output_path` is the
derived path and the derived path now holds a workbook. -/
theorem writer_frame_effect (cfg : ProcessConfig) (f : InputFile) (path : String) (fs : FS) :
    (∀ p, p ≠ derive_output_path path → (processExcelFile cfg f path fs).2 p = fs p) ∧
    (processExcelFile cfg f path fs).2 path = fs path ∧
    ((processExcelFile cfg f path fs).1.success = true →
      (processExcelFile cfg f path fs).1.output_path = derive_output_path path ∧
      ∃ g : Grid, (processExcelFile cfg f path fs).2 (derive_output_path path) = some g) := by
  obtain ⟨rr, mr, w⟩ := f
  cases rr with
  | error e => exact ⟨fun p _ => rfl, rfl, by intro hsucc; exact absurd hsucc (by simp [processExcelFile])⟩
  | ok grid =>
    cases mr with
    | error e => exact ⟨fun p _ => rfl, rfl, by intro hsucc; exact absurd hsucc (by simp [processExcelFile])⟩
    | ok regions =>
      cases w with
      | false => exact ⟨fun p _ => rfl, rfl, by intro hsucc; exact absurd hsucc (by simp [processExcelFile])⟩
      | true =>
        refine ⟨?_, ?_, ?_⟩
        · intro p hp
          show (if p = derive_output_path path
              then some (runEngine cfg.weight_column cfg.box_column grid regions).1
              else fs p) = fs p
          rw [if_neg hp]
        · show (if path = derive_output_path path
              then some (runEngine cfg.weight_column cfg.box_column grid regions).1
              else fs path) = fs path
          rw [if_neg (Ne.symm (derive_output_path_ne path))]
        · intro _
          refine ⟨rfl, (runEngine cfg.weight_column cfg.box_column grid regions).1, ?_⟩
          show (if derive_output_path path = derive_output_path path
              then some (runEngine cfg.weight_column cfg.box_column grid regions).1
              else fs (derive_output_path path)) =
            some (runEngine cfg.weight_column cfg.box_column grid regions).1
          rw [if_pos rfl]

/-- Example workbook for C6: an empty sheet, merge extraction succeeds with no
regions, the output location is writable. -/
def gridC6 : Grid := fun _ _ => .empty

def fileC6 : InputFile := ⟨.ok gridC6, .ok [], true⟩

def fsC6 : FS := fun _ => none

theorem writer_frame_effect_witness :
    (processExcelFile (defaultConfig .seaRailNoImage) fileC6 "/data/shipment.xlsx" fsC6).2
      "/data/shipment.xlsx" = none ∧
    (processExcelFile (defaultConfig .seaRailNoImage) fileC6 "/data/shipment.xlsx" fsC6).1.output_path
      = "/data/shipment_拆分表.xlsx" ∧
    derive_output_path "/data/shipment.xlsx" = "/data/shipment_拆分表.xlsx" := by
  have h := writer_frame_effect (defaultConfig .seaRailNoImage) fileC6 "/data/shipment.xlsx" fsC6
  have hd : derive_output_path "/data/shipment.xlsx" = "/data/shipment_拆分表.xlsx" := rfl
  refine ⟨?_, ?_, hd⟩
  · rw [h.2.1]
    rfl
  · have hsucc : (processExcelFile (defaultConfig .seaRailNoImage) fileC6
        "/data/shipment.xlsx" fsC6).1.success = true := rfl
    rw [(h.2.2 hsucc).1, hd]

/-- C7: a fatal error (read failure, merge-parse failure, or write failure)
makes the invocation fail with `success = false` and empty `output_path` —
and those are the only ways `success = false` arises, so non-fatal logged
conditions never fail the run; when the reader and the merge parser succeed,
the returned logs are exactly the engine's accumulated log entries. -/
theorem pipeline_error_policy (cfg : ProcessConfig) (f : InputFile) (path : String) (fs : FS) :
    ((processExcelFile cfg f path fs).1.success = false ↔
      exOk f.readResult = false ∨ exOk f.mergeResult = false ∨ f.writable = false) ∧
    ((processExcelFile cfg f path fs).1.success = false →
      (processExcelFile cfg f path fs).1.output_path = "") ∧
    (∀ (g : Grid) (rgs : List Region), f.readResult = .ok g → f.mergeResult = .ok rgs →
      (processExcelFile cfg f path fs).1.logs =
        (runEngine cfg.weight_column cfg.box_column g rgs).2.map renderLog) := by
  obtain ⟨rr, mr, w⟩ := f
  cases rr with
  | error e =>
      refine ⟨by simp [processExcelFile, exOk], fun _ => rfl, ?_⟩
      intro g rgs hread
      exact absurd hread (by simp)
  | ok grid =>
      cases mr with
      | error e =>
          refine ⟨by simp [processExcelFile, exOk], fun _ => rfl, ?_⟩
          intro g rgs _ hmerge
          exact absurd hmerge (by simp)
      | ok regions =>
          cases w with
          | false =>
              refine ⟨by simp [processExcelFile, exOk], fun _ => rfl, ?_⟩
              intro g rgs hg hm
              cases hg
              cases hm
              rfl
          | true =>
              refine ⟨by simp [processExcelFile, exOk], ?_, ?_⟩
              · intro hsucc
                exact absurd hsucc (by simp [processExcelFile])
              · intro g rgs hg hm
                cases hg
                cases hm
                rfl

/-- Example workbook for C7: a zero-quantity weight merge (a non-fatal
condition) and an unwritable output location (a fatal write error). -/
def gridC7 : Grid := fun r c =>
  if c = 13 ∧ r = 5 then .num 90 else .empty

def fileC7 : InputFile := ⟨.ok gridC7, .ok [⟨5, 7, 13, 13⟩], false⟩

def fsC7 : FS := fun _ => none

theorem pipeline_error_policy_witness :
    (processExcelFile (defaultConfig .seaRailWithImage) fileC7 "/tmp/in.xlsx" fsC7).1.success
      = false ∧
    (processExcelFile (defaultConfig .seaRailWithImage) fileC7 "/tmp/in.xlsx" fsC7).1.output_path
      = "" := by
  have h := pipeline_error_policy (defaultConfig .seaRailWithImage) fileC7 "/tmp/in.xlsx" fsC7
  have hs : (processExcelFile (defaultConfig .seaRailWithImage) fileC7
      "/tmp/in.xlsx" fsC7).1.success = false :=
    h.1.mpr (Or.inr (Or.inr rfl))
  exact ⟨hs, h.2.1 hs⟩

/-- C8: a write through the Configuration Resolver succeeds exactly when the
weight column and the box column are positive integers within the sane
spreadsheet column range (1 to 100); an invalid config yields an error and is
not persisted. -/
theorem config_write_validation (store : ConfigStore) (c : ProcessConfig) :
    ((∃ s, save_excel_config store c = .ok s) ↔
      (1 ≤ c.weight_column ∧ c.weight_column ≤ 100 ∧
        1 ≤ c.box_column ∧ c.box_column ≤ 100)) ∧
    (validateConfig c = false → ∃ e, save_excel_config store c = .error e) := by
  have hiff : validateConfig c = true ↔
      (1 ≤ c.weight_column ∧ c.weight_column ≤ 100 ∧
        1 ≤ c.box_column ∧ c.box_column ≤ 100) := by
    simp [validateConfig, validColumn, maxColumnIndex, and_assoc]
  constructor
  · constructor
    · rintro ⟨s, hs⟩
      by_cases hv : validateConfig c = true
      · exact hiff.mp hv
      · simp only [save_excel_config, if_neg hv] at hs
        exact Except.noConfusion hs
    · intro hvalid
      refine ⟨fun t => if t = c.process_type then c else store t, ?_⟩
      simp only [save_excel_config, if_pos (hiff.mpr hvalid)]
  · intro hv
    refine ⟨"配置无效：列索引必须是 1 到 100 之间的正整数", ?_⟩
    simp only [save_excel_config, if_neg (by simp [hv] : ¬validateConfig c = true)]

theorem config_write_validation_witness :
    (∃ s, save_excel_config defaultConfig (ProcessConfig.mk .seaRailNoImage 13 11 false)
      = .ok s) ∧
    (∃ e, save_excel_config defaultConfig (ProcessConfig.mk .airFreight 0 11 false)
      = .error e) :=
  ⟨(config_write_validation defaultConfig (ProcessConfig.mk .seaRailNoImage 13 11 false)).1.mpr
      (by norm_num),
   (config_write_validation defaultConfig (ProcessConfig.mk .airFreight 0 11 false)).2
      (by decide)⟩

/-- C9: the `copy_images` flag is a no-op: two invocations whose configurations
differ only in `copy_images` produce identical results (same success flag,
same output path, same logs, and the same resulting filesystem). -/
theorem copy_images_noop (t : ProcessType) (wc bc : Nat) (b₁ b₂ : Bool)
    (f : InputFile) (path : String) (fs : FS) :
    processExcelFile ⟨t, wc, bc, b₁⟩ f path fs = processExcelFile ⟨t, wc, bc, b₂⟩ f path fs := rfl

/-- C10: the process-type identifiers are exactly the three strings
`sea-rail-with-image`, `sea-rail-no-image` and `air-freight`: every
`ProcessConfig` carries one of them, and the list the configuration panel
iterates over contains precisely the identifiers of the `ProcessType` union. -/
theorem process_type_closed :
    (∀ c : ProcessConfig, c.process_type.id ∈ loadAllConfigsTypes) ∧
    (∀ s : String, s ∈ loadAllConfigsTypes ↔ ∃ t : ProcessType, ProcessType.id t = s) := by
  constructor
  · rintro ⟨t, w, b, ci⟩
    cases t <;> simp [ProcessType.id, loadAllConfigsTypes]
  · intro s
    constructor
    · intro hs
      simp only [loadAllConfigsTypes, List.mem_cons, List.not_mem_nil, or_false] at hs
      rcases hs with h | h | h
      · exact ⟨.seaRailWithImage, h.symm⟩
      · exact ⟨.seaRailNoImage, h.symm⟩
      · exact ⟨.airFreight, h.symm⟩
    · rintro ⟨t, rfl⟩
      cases t <;> simp [ProcessType.id, loadAllConfigsTypes]

/-- Example input for the C9 witness: an empty readable sheet and an empty
filesystem. -/
def fileC9 : InputFile := ⟨.ok (fun _ _ => .empty), .ok [], true⟩

def fsC9 : FS := fun _ => none

theorem copy_images_noop_witness :
    processExcelFile ⟨.airFreight, 15, 13, true⟩ fileC9 "/data/a.xlsx" fsC9 =
      processExcelFile ⟨.airFreight, 15, 13, false⟩ fileC9 "/data/a.xlsx" fsC9 :=
  copy_images_noop .airFreight 15 13 true false fileC9 "/data/a.xlsx" fsC9

theorem process_type_closed_witness :
    (ProcessConfig.mk .seaRailWithImage 13 11 true).process_type.id ∈ loadAllConfigsTypes ∧
    ("air-freight" ∈ loadAllConfigsTypes ↔ ∃ t : ProcessType, ProcessType.id t = "air-freight") :=
  ⟨process_type_closed.1 (ProcessConfig.mk .seaRailWithImage 13 11 true),
   process_type_closed.2 "air-freight"⟩
